import Mathlib

/-!
Shallow embedding of the `ingrate` Kubernetes ingress controller
(`src/ingrate.py`) and proofs about the behaviour of its reconciliation
engine.

Kubernetes API objects are modelled as value records carrying only the
fields the embedded code reads.  Python dicts are modelled as association
lists (`List (κ × α)`) with first-match lookup; insertion replaces the
entry for an existing key, so maps built by the embedded code are
extensionally the same functions the Python dicts compute.  Python `None`
is `Option.none`; an uncaught Python exception is an `Except.error`.
-/

namespace Ingrate

/-! ## Annotation and label keys (bit-exact strings from the source) -/

def deploymentRevisionAnn : String := "deployment.kubernetes.io/revision"

def ingrateConfigmapVersionAnn : String := "ingrate.maternity.io/configmap-version"

def ingrateNameLabel : String := "ingrate.maternity.io/name"

def ingrateReleaseSelectorAnn : String := "ingrate.maternity.io/release-selector"

/-! ## Python dict model: association lists with first-match lookup -/

/-- `d[k]` lookup returning `none` for a missing key (`dict.get`). -/
def dget {κ α : Type} [DecidableEq κ] : List (κ × α) → κ → Option α
  | [], _ => none
  | (k', v) :: t, k => if k' = k then some v else dget t k

/-- Remove every binding of key `k` (`del d[k]` on a map with unique keys). -/
def dremove {κ α : Type} [DecidableEq κ] : List (κ × α) → κ → List (κ × α)
  | [], _ => []
  | (k', v) :: t, k => if k' = k then dremove t k else (k', v) :: dremove t k

/-- `d[k] = v`: replace an existing binding of `k` or add one.  The map is
modelled up to lookup, so the new binding is placed at the end. -/
def dinsert {κ α : Type} [DecidableEq κ] (m : List (κ × α)) (k : κ) (v : α) :
    List (κ × α) :=
  dremove m k ++ [(k, v)]

/-- Python `\x7b**a, **b\x7d`: the union of two dicts with the later map `b`
winning on key collisions.  Modelled up to lookup. -/
def dunion {κ α : Type} [DecidableEq κ] (a b : List (κ × α)) : List (κ × α) :=
  b ++ a.filter (fun kv => (dget b kv.1).isNone)

/-- Python dict equality: the same keys bound to the same values,
irrespective of insertion order. -/
def dictEq {κ α : Type} [DecidableEq κ] [DecidableEq α]
    (a b : List (κ × α)) : Bool :=
  a.all (fun kv => dget b kv.1 == some kv.2) &&
    b.all (fun kv => dget a kv.1 == some kv.2)

theorem dget_dremove {κ α : Type} [DecidableEq κ]
    (m : List (κ × α)) (k k' : κ) :
    dget (dremove m k) k' = if k' = k then none else dget m k' := by
  induction m with
  | nil => simp [dget, dremove]
  | cons hd t ih =>
    obtain ⟨a, b⟩ := hd
    by_cases hak : a = k <;> by_cases hk : k' = k <;>
      by_cases hak' : a = k' <;>
      simp_all [dget, dremove]

theorem dget_append {κ α : Type} [DecidableEq κ]
    (l₁ l₂ : List (κ × α)) (k : κ) :
    dget (l₁ ++ l₂) k =
      match dget l₁ k with
      | some v => some v
      | none => dget l₂ k := by
  induction l₁ with
  | nil => simp [dget]
  | cons hd t ih =>
    obtain ⟨a, b⟩ := hd
    by_cases hk : a = k <;> simp [dget, hk, ih]

theorem dget_dinsert {κ α : Type} [DecidableEq κ]
    (m : List (κ × α)) (k k' : κ) (v : α) :
    dget (dinsert m k v) k' = if k' = k then some v else dget m k' := by
  unfold dinsert
  rw [dget_append, dget_dremove]
  by_cases hk : k' = k
  · subst hk
    simp [dget]
  · rw [if_neg hk, if_neg hk]
    cases h : dget m k' with
    | some w => rfl
    | none =>
      simp [dget]
      exact fun h => hk h.symm

theorem dget_filter_of_key_sat {κ α : Type} [DecidableEq κ]
    (p : κ × α → Bool) (l : List (κ × α)) (k : κ)
    (hp : ∀ v, p (k, v) = true) :
    dget (l.filter p) k = dget l k := by
  induction l with
  | nil => simp [dget]
  | cons hd t ih =>
    obtain ⟨a, b⟩ := hd
    by_cases hk : a = k
    · subst hk
      simp [List.filter, hp b, dget, ih]
    · cases hpab : p (a, b) <;> simp [List.filter, hpab, dget, hk, ih]

/-- What a lookup in `\x7b**a, **b\x7d` must give: `b`'s binding when `b`
has the key, otherwise `a`'s. -/
def overrideLookup {κ α : Type} [DecidableEq κ]
    (a b : List (κ × α)) (k : κ) : Option α :=
  match dget b k with
  | some v => some v
  | none => dget a k

/-- Lookup in a dict union: the later map wins on key collisions. -/
theorem dget_dunion {κ α : Type} [DecidableEq κ]
    (a b : List (κ × α)) (k : κ) :
    dget (dunion a b) k = overrideLookup a b k := by
  unfold overrideLookup
  unfold dunion
  rw [dget_append]
  cases hb : dget b k with
  | some v => rfl
  | none =>
    simp only
    exact dget_filter_of_key_sat _ a k (fun v => by simp [hb])

theorem mem_dremove {κ α : Type} [DecidableEq κ]
    {m : List (κ × α)} {k : κ} {kv : κ × α} (h : kv ∈ dremove m k) :
    kv ∈ m := by
  induction m with
  | nil => simp [dremove] at h
  | cons hd t ih =>
    obtain ⟨a, b⟩ := hd
    rw [dremove] at h
    split at h
    · exact List.mem_cons_of_mem _ (ih h)
    · rcases List.mem_cons.1 h with h1 | h1
      · exact h1 ▸ List.mem_cons_self _ _
      · exact List.mem_cons_of_mem _ (ih h1)

theorem mem_dinsert {κ α : Type} [DecidableEq κ]
    {m : List (κ × α)} {k : κ} {v : α} {kv : κ × α}
    (h : kv ∈ dinsert m k v) :
    kv ∈ m ∨ kv = (k, v) := by
  unfold dinsert at h
  rcases List.mem_append.1 h with h | h
  · exact Or.inl (mem_dremove h)
  · exact Or.inr (by simpa using h)

/-! ## Data model -/

/-- `status.loadBalancer` of a Service or an Ingress.  The entries of its
`ingress` list are opaque to the controller; we model each entry as the
hostname string it carries. -/
structure LoadBalancerStatus where
  ingress : List String
deriving DecidableEq

structure ServiceStatus where
  loadBalancer : Option LoadBalancerStatus
deriving DecidableEq

/-- A Service with exactly the fields `ingrate.py` reads:
`metadata.namespace`, `metadata.name`, `metadata.annotations`
(`None` or a dict), `spec.type` and `status`. -/
structure Service where
  ns : String
  name : String
  svcType : String
  annos : Option (List (String × String))
  status : Option ServiceStatus
deriving DecidableEq

structure IngressStatus where
  loadBalancer : Option LoadBalancerStatus
deriving DecidableEq

/-- An Ingress as the event loop sees it: identity plus current status. -/
structure Ingress where
  ns : String
  name : String
  status : Option IngressStatus
deriving DecidableEq

structure Secret where
  ns : String
  name : String
deriving DecidableEq

structure OwnerReference where
  apiVersion : String
  kind : String
  name : String
  uid : String
deriving DecidableEq

/-- A ConfigMap with the fields `ingrate.py` reads and writes. -/
structure ConfigMap where
  ns : String
  name : String
  generateName : Option String
  labels : List (String × String)
  ownerReferences : Option (List OwnerReference)
  data : List (String × String)
deriving DecidableEq

structure Deployment where
  annos : List (String × String)
deriving DecidableEq

structure ReplicaSet where
  apiVersion : String
  kind : String
  ns : String
  name : String
  uid : String
deriving DecidableEq

/-- The kinds of uncaught Python exception the embedded code can raise. -/
inductive PyErr
  | attributeError
  | keyError
deriving DecidableEq

/-! ## `IngrateController.add_configmap_owner_ref` (src/ingrate.py:580-604) -/

/-- `target.metadata.ownerReferences and any(ref.uid == referrent.metadata.uid
for ref in target.metadata.ownerReferences)`: the list is truthy (present and
non-empty) and holds a reference with the ReplicaSet's uid. -/
def hasOwnerRefUid (target : ConfigMap) (uid : String) : Bool :=
  match target.ownerReferences with
  | none => false
  | some refs => (!refs.isEmpty) && refs.any (fun r => r.uid == uid)

/-- The `OwnerReference` appended for a ReplicaSet. -/
def ownerRefOfRS (rs : ReplicaSet) : OwnerReference :=
  { apiVersion := rs.apiVersion, kind := rs.kind, name := rs.name, uid := rs.uid }

/-- `add_configmap_owner_ref(target, referrent)`.  Returns the updated
ConfigMap and whether `replace_namespaced_config_map` was called. -/
def add_configmap_owner_ref (target : ConfigMap) (referrent : ReplicaSet) :
    ConfigMap × Bool :=
  if hasOwnerRefUid target referrent.uid then
    (target, false)
  else
    let refs := target.ownerReferences.getD []
    ({ target with ownerReferences := some (refs ++ [ownerRefOfRS referrent]) },
      true)

/-- How many ownerReferences entries of `cm` carry uid `uid`. -/
def countOwnerRefUid (cm : ConfigMap) (uid : String) : Nat :=
  (cm.ownerReferences.getD []).countP (fun r => r.uid == uid)

/-- `n` successive reconciliations each pinning the same ReplicaSet. -/
def applyOwnerRefN : Nat → ConfigMap → ReplicaSet → ConfigMap
  | 0, cm, _ => cm
  | n + 1, cm, rs => applyOwnerRefN n (add_configmap_owner_ref cm rs).1 rs

theorem hasOwnerRefUid_iff_count_pos (cm : ConfigMap) (uid : String) :
    hasOwnerRefUid cm uid = true ↔ 0 < countOwnerRefUid cm uid := by
  unfold hasOwnerRefUid countOwnerRefUid
  cases h : cm.ownerReferences with
  | none => simp
  | some refs =>
    simp only [Option.getD_some]
    rw [Bool.and_eq_true, List.any_eq_true, List.countP_pos_iff]
    constructor
    · rintro ⟨-, r, hr, hru⟩
      exact ⟨r, hr, hru⟩
    · rintro ⟨r, hr, hru⟩
      refine ⟨?_, r, hr, hru⟩
      cases refs with
      | nil => exact absurd hr (List.not_mem_nil r)
      | cons a l => rfl

theorem countOwnerRefUid_after_add (cm : ConfigMap) (rs : ReplicaSet) :
    countOwnerRefUid (add_configmap_owner_ref cm rs).1 rs.uid =
      if hasOwnerRefUid cm rs.uid then countOwnerRefUid cm rs.uid else
        countOwnerRefUid cm rs.uid + 1 := by
  unfold add_configmap_owner_ref
  by_cases h : hasOwnerRefUid cm rs.uid = true
  · simp [h]
  · simp only [h, Bool.false_eq_true, if_false]
    unfold countOwnerRefUid
    simp [List.countP_append, List.countP_cons, ownerRefOfRS]

theorem countOwnerRefUid_applyN_of_pos (cm : ConfigMap) (rs : ReplicaSet)
    (h : 0 < countOwnerRefUid cm rs.uid) (n : Nat) :
    countOwnerRefUid (applyOwnerRefN n cm rs) rs.uid =
      countOwnerRefUid cm rs.uid := by
  induction n generalizing cm with
  | zero => rfl
  | succ n ih =>
    have hb : hasOwnerRefUid cm rs.uid = true :=
      (hasOwnerRefUid_iff_count_pos cm rs.uid).2 h
    have hstep := countOwnerRefUid_after_add cm rs
    rw [hb, if_pos rfl] at hstep
    unfold applyOwnerRefN
    rw [ih _ (by rw [hstep]; exact h), hstep]

/-- C3: `add_configmap_owner_ref` is idempotent with respect to the
ReplicaSet's uid.  (1) If a reference with the uid is already present the
ConfigMap is returned unchanged and no replace call is made.  (2) Otherwise
exactly one `OwnerReference` carrying the ReplicaSet's `apiVersion`, `kind`,
`name` and `uid` is appended and a replace is issued.  (3) Starting from a
ConfigMap with at most one reference carrying the uid, after any positive
number of calls the ConfigMap holds exactly one reference with that uid. -/
theorem owner_ref_idempotent_c3 (cm : ConfigMap) (rs : ReplicaSet) :
    (hasOwnerRefUid cm rs.uid = true →
      add_configmap_owner_ref cm rs = (cm, false)) ∧
    (hasOwnerRefUid cm rs.uid = false →
      add_configmap_owner_ref cm rs =
        ({ cm with
             ownerReferences :=
               some (cm.ownerReferences.getD [] ++ [ownerRefOfRS rs]) },
          true)) ∧
    (countOwnerRefUid cm rs.uid ≤ 1 → ∀ n, 1 ≤ n →
      countOwnerRefUid (applyOwnerRefN n cm rs) rs.uid = 1) := by
  refine ⟨?_, ?_, ?_⟩
  · intro h
    simp [add_configmap_owner_ref, h]
  · intro h
    simp [add_configmap_owner_ref, h]
  · intro hle n hn
    cases n with
    | zero => exact absurd hn (by decide)
    | succ m =>
      unfold applyOwnerRefN
      have hstep := countOwnerRefUid_after_add cm rs
      by_cases h : hasOwnerRefUid cm rs.uid = true
      · have hpos := (hasOwnerRefUid_iff_count_pos cm rs.uid).1 h
        have hone : countOwnerRefUid cm rs.uid = 1 := Nat.le_antisymm hle hpos
        rw [h, if_pos rfl] at hstep
        rw [countOwnerRefUid_applyN_of_pos _ _ (by rw [hstep]; exact hpos) m,
          hstep, hone]
      · have hzero : countOwnerRefUid cm rs.uid = 0 := by
          rcases Nat.eq_zero_or_pos (countOwnerRefUid cm rs.uid) with h0 | hpos
          · exact h0
          · exact absurd ((hasOwnerRefUid_iff_count_pos cm rs.uid).2 hpos) h
        rw [if_neg h] at hstep
        rw [countOwnerRefUid_applyN_of_pos _ _
            (by rw [hstep, hzero]; exact Nat.one_pos) m,
          hstep, hzero]

/-- Concrete ConfigMap with no owner references. -/
def cmFresh : ConfigMap :=
  { ns := "default", name := "ingrate-n-abc12", generateName := some "ingrate-n-",
    labels := [(ingrateNameLabel, "n")], ownerReferences := none,
    data := [("haproxy.cfg", "cfg-v1")] }

def rsOne : ReplicaSet :=
  { apiVersion := "extensions/v1beta1", kind := "ReplicaSet",
    ns := "default", name := "ingrate-n-proxy-1", uid := "uid-1" }

/-- ConfigMap already pinned to `rsOne`. -/
def cmPinned : ConfigMap :=
  { cmFresh with ownerReferences := some [ownerRefOfRS rsOne] }

theorem owner_ref_idempotent_c3_witness :
    add_configmap_owner_ref cmPinned rsOne = (cmPinned, false) ∧
    countOwnerRefUid (applyOwnerRefN 3 cmFresh rsOne) rsOne.uid = 1 :=
  ⟨(owner_ref_idempotent_c3 cmPinned rsOne).1 (by decide),
   (owner_ref_idempotent_c3 cmFresh rsOne).2.2 (by decide) 3 (by decide)⟩

/-! ## Snapshot aggregator:
`IngrateController.watch_ingresses_and_related_resources`
(src/ingrate.py:231-301)

The aggregator's `async for tag,d in mingler` loop is embedded as a step
function on a state holding the five cached values.  Substream lifetime is
modelled with generation counters: (re)starting a substream increments its
generation, and closing it means its remaining events (carrying the old
generation) are never delivered, which `validAggEvent` enforces.  Each
substream event also carries the basis it was derived from — the ingress
list a services/secrets substream was started over, or the services map a
release-services substream was started over — recorded in the `...Basis`
ghost fields when the substream is started. -/

abbrev Key := String × String

abbrev SvcMap := List (Key × Service)

abbrev SecMap := List (Key × Secret)

abbrev RelMap := List (Key × List String)

/-- The dict yielded by the aggregator when the `none_is_none` gate passes:
`dict(ingresses=..., services=\x7b**services, **release_services\x7d,
secrets=..., release_map=...)`. -/
structure Snapshot where
  ingresses : List Ingress
  services : SvcMap
  secrets : SecMap
  release_map : RelMap
deriving DecidableEq

/-- The aggregator loop's local variables, plus ghost generation counters
and stream bases modelling which substreams are currently running. -/
structure AggState where
  ingresses : Option (List Ingress)
  services : Option (List Ingress × SvcMap)
  secrets : Option (List Ingress × SecMap)
  release_services : Option (SvcMap × SvcMap)
  release_map : Option (SvcMap × RelMap)
  servicesGen : Nat
  secretsGen : Nat
  releaseGen : Nat
  servicesBasis : List Ingress
  secretsBasis : List Ingress
  releaseBasis : SvcMap
deriving DecidableEq

def aggInit : AggState :=
  { ingresses := none, services := none, secrets := none,
    release_services := none, release_map := none,
    servicesGen := 0, secretsGen := 0, releaseGen := 0,
    servicesBasis := [], secretsBasis := [], releaseBasis := [] }

/-- A tagged event pulled from the mingler: the tag of the source stream,
the generation of the substream that produced it, the basis the substream
was started over, and the value(s) carried. -/
inductive AggEvent
  | ing (v : List Ingress)
  | svc (gen : Nat) (basis : List Ingress) (v : SvcMap)
  | sec (gen : Nat) (basis : List Ingress) (v : SecMap)
  | rel (gen : Nat) (basis : SvcMap) (v : SvcMap) (m : RelMap)
deriving DecidableEq

/-- The mingler only delivers events of substreams that are still running:
the event's generation is the current one (a closed substream's events are
discarded with it) and its basis is the one the substream was started
over.  `ingresses` events are always deliverable. -/
def validAggEvent (s : AggState) : AggEvent → Prop
  | .ing _ => True
  | .svc gen basis _ =>
      gen = s.servicesGen ∧ 0 < s.servicesGen ∧ basis = s.servicesBasis
  | .sec gen basis _ =>
      gen = s.secretsGen ∧ 0 < s.secretsGen ∧ basis = s.secretsBasis
  | .rel gen basis _ _ =>
      gen = s.releaseGen ∧ 0 < s.releaseGen ∧ basis = s.releaseBasis

/-- One branch of the `async for tag,d in mingler` dispatch.  On an
`ingresses` event the services and secrets substreams are closed and
restarted over the new ingress list and their caches nulled; the
release-services substream and its caches are left alone.  On a `services`
event the release-services substream is closed and restarted over the new
services map and its caches nulled. -/
def applyAggEvent (s : AggState) : AggEvent → AggState
  | .ing v =>
      { s with
          ingresses := some v,
          services := none,
          servicesGen := s.servicesGen + 1,
          servicesBasis := v,
          secrets := none,
          secretsGen := s.secretsGen + 1,
          secretsBasis := v }
  | .svc _ basis v =>
      { s with
          services := some (basis, v),
          release_services := none,
          release_map := none,
          releaseGen := s.releaseGen + 1,
          releaseBasis := v }
  | .sec _ basis v => { s with secrets := some (basis, v) }
  | .rel _ basis v m =>
      { s with
          release_services := some (basis, v),
          release_map := some (basis, m) }

/-- The `none_is_none(ingresses, services, secrets, release_services,
release_map)` output gate: a snapshot is yielded only when all five cached
values are non-null. -/
def aggEmit (s : AggState) : Option Snapshot :=
  match s.ingresses, s.services, s.secrets, s.release_services, s.release_map with
  | some i, some sv, some sc, some rv, some rm =>
      some { ingresses := i, services := dunion sv.2 rv.2,
             secrets := sc.2, release_map := rm.2 }
  | _, _, _, _, _ => none

/-- One loop iteration: dispatch on the tag, then check the gate. -/
def aggStep (s : AggState) (e : AggEvent) : AggState × Option Snapshot :=
  let t := applyAggEvent s e
  (t, aggEmit t)

/-- States the aggregator loop can actually be in: reachable from the
initial state by delivering events of currently-running substreams. -/
inductive AggReach : AggState → Prop
  | init : AggReach aggInit
  | step {s : AggState} {e : AggEvent} :
      AggReach s → validAggEvent s e → AggReach (aggStep s e).1

/-- Causal-freshness invariant: cached dependent values were always derived
from the currently cached upstream value. -/
def AggInv (s : AggState) : Prop :=
  (0 < s.servicesGen → s.ingresses = some s.servicesBasis) ∧
  (0 < s.secretsGen → s.ingresses = some s.secretsBasis) ∧
  (∀ b v, s.services = some (b, v) → s.ingresses = some b) ∧
  (∀ b v, s.secrets = some (b, v) → s.ingresses = some b) ∧
  (∀ b v, s.services = some (b, v) → s.releaseBasis = v) ∧
  (∀ b v b' r, s.services = some (b, v) → s.release_services = some (b', r) →
    b' = v) ∧
  (∀ b v b' r, s.services = some (b, v) → s.release_map = some (b', r) →
    b' = v)

theorem aggInv_init : AggInv aggInit := by
  refine ⟨?_, ?_, ?_, ?_, ?_, ?_, ?_⟩ <;> simp [aggInit]

theorem aggInv_step {s : AggState} {e : AggEvent}
    (hs : AggInv s) (hv : validAggEvent s e) : AggInv (aggStep s e).1 := by
  obtain ⟨h1, h2, h3, h4, h5, h6, h7⟩ := hs
  cases e with
  | ing v =>
    refine ⟨?_, ?_, ?_, ?_, ?_, ?_, ?_⟩ <;> simp [aggStep, applyAggEvent]
  | svc gen basis v =>
    obtain ⟨hg, hpos, hb⟩ := hv
    refine ⟨?_, ?_, ?_, ?_, ?_, ?_, ?_⟩ <;>
      simp only [aggStep, applyAggEvent]
    · intro _
      exact h1 hpos
    · intro h
      exact h2 h
    · intro b w h
      obtain ⟨rfl, rfl⟩ := Prod.mk.injEq .. ▸ (Option.some.injEq .. ▸ h)
      exact hb ▸ h1 hpos
    · intro b w h
      exact h4 b w h
    · intro b w h
      obtain ⟨-, rfl⟩ := Prod.mk.injEq .. ▸ (Option.some.injEq .. ▸ h)
      rfl
    · intro b w b' r _ h
      exact absurd h (by simp)
    · intro b w b' r _ h
      exact absurd h (by simp)
  | sec gen basis v =>
    obtain ⟨hg, hpos, hb⟩ := hv
    refine ⟨?_, ?_, ?_, ?_, ?_, ?_, ?_⟩ <;>
      simp only [aggStep, applyAggEvent]
    · intro h
      exact h1 h
    · intro _
      exact h2 hpos
    · intro b w h
      exact h3 b w h
    · intro b w h
      obtain ⟨rfl, rfl⟩ := Prod.mk.injEq .. ▸ (Option.some.injEq .. ▸ h)
      exact hb ▸ h2 hpos
    · intro b w h
      exact h5 b w h
    · intro b w b' r hsv hrel
      exact h6 b w b' r hsv hrel
    · intro b w b' r hsv hrel
      exact h7 b w b' r hsv hrel
  | rel gen basis v m =>
    obtain ⟨hg, hpos, hb⟩ := hv
    refine ⟨?_, ?_, ?_, ?_, ?_, ?_, ?_⟩ <;>
      simp only [aggStep, applyAggEvent]
    · intro h
      exact h1 h
    · intro h
      exact h2 h
    · intro b w h
      exact h3 b w h
    · intro b w h
      exact h4 b w h
    · intro b w h
      exact h5 b w h
    · intro b w b' r hsv hrel
      obtain ⟨rfl, -⟩ := Prod.mk.injEq .. ▸ (Option.some.injEq .. ▸ hrel)
      exact hb ▸ h5 b w hsv
    · intro b w b' r hsv hrel
      obtain ⟨rfl, -⟩ := Prod.mk.injEq .. ▸ (Option.some.injEq .. ▸ hrel)
      exact hb ▸ h5 b w hsv

theorem aggReach_inv {s : AggState} (h : AggReach s) : AggInv s := by
  induction h with
  | init => exact aggInv_init
  | step _ hv ih => exact aggInv_step ih hv

/-- Inversion of the output gate. -/
theorem aggEmit_eq_some {s : AggState} {snap : Snapshot}
    (h : aggEmit s = some snap) :
    ∃ i bsv sv bsc sc brv rv brm rm,
      s.ingresses = some i ∧ s.services = some (bsv, sv) ∧
      s.secrets = some (bsc, sc) ∧ s.release_services = some (brv, rv) ∧
      s.release_map = some (brm, rm) ∧
      snap = { ingresses := i, services := dunion sv rv,
               secrets := sc, release_map := rm } := by
  unfold aggEmit at h
  split at h
  · next i sv sc rv rm hi hsv hsc hrv hrm =>
    exact ⟨i, sv.1, sv.2, sc.1, sc.2, rv.1, rv.2, rm.1, rm.2,
      hi, hsv, hsc, hrv, hrm, (Option.some.injEq .. ▸ h).symm⟩
  · exact absurd h (by simp)

/-- C4: the aggregator yields a snapshot only when all five of `ingresses`,
`services`, `secrets`, `release_services` and `release_map` are non-null
(each observed at least once since its last reset, which nulls it), and
every yielded snapshot's `services` is the dict union of the services map
and the release-services map with the release-services map winning on key
collisions. -/
theorem aggregator_gate_and_union_c4 (s : AggState) (e : AggEvent)
    (snap : Snapshot) (h : (aggStep s e).2 = some snap) :
    ∃ i bsv sv bsc sc brv rv brm rm,
      (aggStep s e).1.ingresses = some i ∧
      (aggStep s e).1.services = some (bsv, sv) ∧
      (aggStep s e).1.secrets = some (bsc, sc) ∧
      (aggStep s e).1.release_services = some (brv, rv) ∧
      (aggStep s e).1.release_map = some (brm, rm) ∧
      snap = { ingresses := i, services := dunion sv rv,
               secrets := sc, release_map := rm } ∧
      ∀ k, dget snap.services k = overrideLookup sv rv k := by
  obtain ⟨i, bsv, sv, bsc, sc, brv, rv, brm, rm, hi, hsv, hsc, hrv, hrm, hsnap⟩ :=
    aggEmit_eq_some (s := (aggStep s e).1) h
  refine ⟨i, bsv, sv, bsc, sc, brv, rv, brm, rm, hi, hsv, hsc, hrv, hrm, hsnap, ?_⟩
  intro k
  rw [hsnap]
  exact dget_dunion sv rv k

/-- Concrete emitting state for the C4 witness: all five values cached. -/
def aggAllSet : AggState :=
  { ingresses := some [], services := some ([], []),
    secrets := some ([], []), release_services := some ([], []),
    release_map := some ([], []),
    servicesGen := 1, secretsGen := 1, releaseGen := 1,
    servicesBasis := [], secretsBasis := [], releaseBasis := [] }

/-- The snapshot `aggAllSet` emits. -/
def snapEmpty : Snapshot :=
  { ingresses := [], services := [], secrets := [], release_map := [] }

theorem aggregator_gate_and_union_c4_witness :
    ∃ i bsv sv bsc sc brv rv brm rm,
      (aggStep aggAllSet (.sec 1 [] [])).1.ingresses = some i ∧
      (aggStep aggAllSet (.sec 1 [] [])).1.services = some (bsv, sv) ∧
      (aggStep aggAllSet (.sec 1 [] [])).1.secrets = some (bsc, sc) ∧
      (aggStep aggAllSet (.sec 1 [] [])).1.release_services = some (brv, rv) ∧
      (aggStep aggAllSet (.sec 1 [] [])).1.release_map = some (brm, rm) ∧
      snapEmpty = { ingresses := i, services := dunion sv rv,
                    secrets := sc, release_map := rm } ∧
      ∀ k, dget snapEmpty.services k = overrideLookup sv rv k :=
  aggregator_gate_and_union_c4 aggAllSet (.sec 1 [] []) snapEmpty (by decide)

/-- Concrete state with a running release-services substream and cached
release values, about to receive a new `ingresses` value. -/
def aggRelSet : AggState :=
  { ingresses := some [], services := some ([], []),
    secrets := some ([], []),
    release_services := some ([], [(("ns", "web-v1"),
      { ns := "ns", name := "web-v1", svcType := "ClusterIP",
        annos := none, status := none })]),
    release_map := some ([], [(("ns", "web-releases"), ["web-v1"])]),
    servicesGen := 1, secretsGen := 1, releaseGen := 1,
    servicesBasis := [], secretsBasis := [], releaseBasis := [] }

/-- C1 counterexample: on a new `ingresses` value the aggregator does NOT
close the release-services substream (its generation is unchanged, so its
events keep being delivered) and does NOT null the cached
`release_services`/`release_map` values. -/
theorem ingress_restart_c1_counterexample :
    (aggStep aggRelSet (.ing [])).1.release_services ≠ none ∧
    (aggStep aggRelSet (.ing [])).1.release_map ≠ none ∧
    (aggStep aggRelSet (.ing [])).1.releaseGen = aggRelSet.releaseGen ∧
    (aggStep aggRelSet (.ing [])).1.release_services =
      aggRelSet.release_services := by
  refine ⟨?_, ?_, rfl, rfl⟩ <;> simp [aggStep, applyAggEvent, aggRelSet]

/-- C1 (amended): on each new `ingresses` value the aggregator closes the
running `services` and `secrets` substreams, nulls their cached values and
starts fresh substreams over the new ingress set, while the
`release_services` substream and the cached
`release_services`/`release_map` values are left untouched until the next
`services` value arrives (which closes and restarts the release-services
substream and nulls both values).  Nevertheless every snapshot yielded
afterwards reflects only the new ingress set: its `services` and `secrets`
come from substreams started over exactly the snapshot's own ingress list,
and its release values from a substream started over exactly that services
map. -/
theorem ingress_restart_c1_amended :
    (∀ (s : AggState) (v : List Ingress),
      (aggStep s (.ing v)).1.ingresses = some v ∧
      (aggStep s (.ing v)).1.services = none ∧
      (aggStep s (.ing v)).1.secrets = none ∧
      (aggStep s (.ing v)).1.servicesGen = s.servicesGen + 1 ∧
      (aggStep s (.ing v)).1.secretsGen = s.secretsGen + 1 ∧
      (aggStep s (.ing v)).1.servicesBasis = v ∧
      (aggStep s (.ing v)).1.secretsBasis = v ∧
      (aggStep s (.ing v)).1.releaseGen = s.releaseGen ∧
      (aggStep s (.ing v)).1.release_services = s.release_services ∧
      (aggStep s (.ing v)).1.release_map = s.release_map) ∧
    (∀ (s : AggState) (e : AggEvent) (snap : Snapshot),
      AggReach s → validAggEvent s e → (aggStep s e).2 = some snap →
      ∃ sv sc rv rm,
        (aggStep s e).1.services = some (snap.ingresses, sv) ∧
        (aggStep s e).1.secrets = some (snap.ingresses, sc) ∧
        (aggStep s e).1.release_services = some (sv, rv) ∧
        (aggStep s e).1.release_map = some (sv, rm) ∧
        snap.services = dunion sv rv) := by
  constructor
  · intro s v
    refine ⟨rfl, rfl, rfl, rfl, rfl, rfl, rfl, rfl, rfl, rfl⟩
  · intro s e snap hreach hvalid h
    have hinv : AggInv (aggStep s e).1 :=
      aggInv_step (aggReach_inv hreach) hvalid
    obtain ⟨i, bsv, sv, bsc, sc, brv, rv, brm, rm,
      hi, hsv, hsc, hrv, hrm, hsnap⟩ :=
      aggEmit_eq_some (s := (aggStep s e).1) h
    obtain ⟨-, -, h3, h4, -, h6, h7⟩ := hinv
    have hbsv : (aggStep s e).1.ingresses = some bsv := h3 bsv sv hsv
    have hbsc : (aggStep s e).1.ingresses = some bsc := h4 bsc sc hsc
    have hibsv : i = bsv := by
      rw [hi] at hbsv
      exact Option.some.inj hbsv
    have hibsc : i = bsc := by
      rw [hi] at hbsc
      exact Option.some.inj hbsc
    have hbrv : brv = sv := h6 bsv sv brv rv hsv hrv
    have hbrm : brm = sv := h7 bsv sv brm rm hsv hrm
    have hing : snap.ingresses = i := by rw [hsnap]
    refine ⟨sv, sc, rv, rm, ?_, ?_, ?_, ?_, ?_⟩
    · rw [hing, hibsv]
      exact hsv
    · rw [hing, hibsc]
      exact hsc
    · rw [← hbrv]
      exact hrv
    · rw [← hbrm]
      exact hrm
    · rw [hsnap]

/-- Intermediate states of a small run used by the C1 witness. -/
def aggW1 : AggState := (aggStep aggInit (.ing [])).1

def aggW2 : AggState := (aggStep aggW1 (.svc 1 [] [])).1

def aggW3 : AggState := (aggStep aggW2 (.sec 1 [] [])).1

theorem ingress_restart_c1_witness :
    ∃ sv sc rv rm,
      (aggStep aggW3 (.rel 1 [] [] [])).1.services =
        some (snapEmpty.ingresses, sv) ∧
      (aggStep aggW3 (.rel 1 [] [] [])).1.secrets =
        some (snapEmpty.ingresses, sc) ∧
      (aggStep aggW3 (.rel 1 [] [] [])).1.release_services = some (sv, rv) ∧
      (aggStep aggW3 (.rel 1 [] [] [])).1.release_map = some (sv, rm) ∧
      snapEmpty.services = dunion sv rv := by
  have r1 : AggReach aggW1 := @AggReach.step aggInit (.ing []) AggReach.init trivial
  have r2 : AggReach aggW2 :=
    @AggReach.step aggW1 (.svc 1 [] []) r1 ⟨rfl, by decide, rfl⟩
  have r3 : AggReach aggW3 :=
    @AggReach.step aggW2 (.sec 1 [] []) r2 ⟨rfl, by decide, rfl⟩
  exact ingress_restart_c1_amended.2 aggW3 (.rel 1 [] [] []) snapEmpty r3
    ⟨rfl, by decide, rfl⟩ (by decide)

/-! ## `IngrateController.watch_release_service_services`
(src/ingrate.py:412-478) -/

/-- A service is a release stub when `metadata.annotations` is not `None`
and carries the `ingrate.maternity.io/release-selector` key. -/
def isReleaseStub (rsvc : Service) : Bool :=
  match rsvc.annos with
  | none => false
  | some a => (dget a ingrateReleaseSelectorAnn).isSome

/-- Outcome of the listing phase of `watch_release_service_services`, up to
and including its first `yield` and the `if not release_stubs: return` that
follows.  `finishes` records whether the async generator returns right
after the initial yield: the `return` under the `# Nothing to watch.`
comment runs when there are no stubs, and the
`await asyncio.Future()` intended to wait forever is dead code below it. -/
structure RelStreamInit where
  release_stubs : List Service
  services : SvcMap
  release_map : RelMap
  finishes : Bool
deriving DecidableEq

/-- Listing phase: `listSvc rsvc` stands for
`list_namespaced_service(rsvc.metadata.namespace, labelSelector=
rsvc.metadata.annotations[release-selector])`. -/
def watch_release_service_services_init (listSvc : Service → List Service)
    (svcsIn : List Service) : RelStreamInit :=
  let release_stubs := svcsIn.filter isReleaseStub
  let services := release_stubs.foldl
    (fun acc rsvc => (listSvc rsvc).foldl
      (fun acc2 svc => dinsert acc2 (svc.ns, svc.name) svc) acc) []
  let release_map := release_stubs.foldl
    (fun acc rsvc => dinsert acc (rsvc.ns, rsvc.name)
      ((listSvc rsvc).map (fun svc => svc.name))) []
  { release_stubs := release_stubs, services := services,
    release_map := release_map, finishes := release_stubs.isEmpty }

/-- A service that is not a release stub. -/
def plainSvc : Service :=
  { ns := "ns", name := "web", svcType := "ClusterIP",
    annos := some [], status := none }

/-- C5: with no release stubs among the input services, the stream yields
one initial snapshot with empty `services` and empty `release_map` — and
then the generator RETURNS (it finishes) instead of suspending forever as
the spec intends: the `await asyncio.Future()` meant to park the stream is
unreachable dead code after the `return` statement. -/
theorem release_watch_no_stubs_c5 :
    (watch_release_service_services_init (fun _ => []) [plainSvc]).services
        = [] ∧
    (watch_release_service_services_init (fun _ => []) [plainSvc]).release_map
        = [] ∧
    (watch_release_service_services_init (fun _ => []) [plainSvc]).finishes
        = true := by
  refine ⟨?_, ?_, ?_⟩ <;> rfl

/-- The tag of a watch event; `other` stands for any tag outside
ADDED/MODIFIED/DELETED (e.g. ERROR, BOOKMARK). -/
inductive WatchEv
  | added
  | modified
  | deleted
  | other
deriving DecidableEq

/-- Python set `.add`. -/
def setAdd (s : List String) (x : String) : List String :=
  if x ∈ s then s else s ++ [x]

/-- Python set `.discard`. -/
def setDiscard (s : List String) (x : String) : List String :=
  s.filter (fun y => y ≠ x)

structure RelWatchState where
  services : SvcMap
  release_map : RelMap
deriving DecidableEq

/-- The watch-loop body of `watch_release_service_services`
(src/ingrate.py:461-478).  On DELETED it runs `del services[ns, name]`
with no `except KeyError` handler, so a delete of an untracked key raises.
The returned `Bool` is whether the iteration reaches its `yield`. -/
def relWatchStep (st : RelWatchState) (rsvc : Service) (ev : WatchEv)
    (svc : Service) : Except PyErr (RelWatchState × Bool) :=
  match ev with
  | .added | .modified =>
      match dget st.release_map (rsvc.ns, rsvc.name) with
      | none => .error .keyError
      | some names =>
          .ok ({ services := dinsert st.services (svc.ns, svc.name) svc,
                 release_map := dinsert st.release_map (rsvc.ns, rsvc.name)
                   (setAdd names svc.name) }, true)
  | .deleted =>
      match dget st.services (svc.ns, svc.name) with
      | none => .error .keyError
      | some _ =>
          match dget st.release_map (rsvc.ns, rsvc.name) with
          | none => .error .keyError
          | some names =>
              .ok ({ services := dremove st.services (svc.ns, svc.name),
                     release_map := dinsert st.release_map (rsvc.ns, rsvc.name)
                       (setDiscard names svc.name) }, true)
  | .other => .ok (st, false)

/-- The watch-loop body of `watch_ingress_services`
(src/ingrate.py:352-370): the same DELETED case is wrapped in
`try: ... except KeyError: continue`, so a double delete skips the yield
and the stream continues.  (`watch_ingress_secrets` at
src/ingrate.py:392-410 is identical in shape.) -/
def ingSvcWatchStep (services : SvcMap) (ev : WatchEv) (svc : Service) :
    SvcMap × Bool :=
  match ev with
  | .added | .modified => (dinsert services (svc.ns, svc.name) svc, true)
  | .deleted =>
      match dget services (svc.ns, svc.name) with
      | some _ => (dremove services (svc.ns, svc.name), true)
      | none => (services, false)
  | .other => (services, false)

/-- C10: a DELETED event for a service that is not a key of the release
watcher's `services` map raises an uncaught KeyError that terminates the
stream, while the ingress-services watcher catches the KeyError on the
same double delete and continues without emitting. -/
theorem release_delete_keyerror_c10 (st : RelWatchState) (rsvc svc : Service)
    (m : SvcMap) (h1 : dget st.services (svc.ns, svc.name) = none)
    (h2 : dget m (svc.ns, svc.name) = none) :
    relWatchStep st rsvc .deleted svc = .error .keyError ∧
    ingSvcWatchStep m .deleted svc = (m, false) := by
  constructor
  · simp only [relWatchStep, h1]
  · simp only [ingSvcWatchStep, h2]

theorem release_delete_keyerror_c10_witness :
    relWatchStep { services := [], release_map := [] } plainSvc .deleted
        plainSvc = .error .keyError ∧
    ingSvcWatchStep [] .deleted plainSvc = ([], false) :=
  release_delete_keyerror_c10 { services := [], release_map := [] }
    plainSvc plainSvc [] rfl rfl

/-! ## `IngrateController.validate_or_create_ingrate_configmap`
(src/ingrate.py:492-545)

`read_configmap` (src/ingrate.py:485-487) suppresses `AK8sNotFound` and
returns `None` for an absent ConfigMap; it is modelled as the
`readCM : String → Option ConfigMap` parameter.
`create_namespaced_config_map` is modelled as the
`createCM : CMRequest → ConfigMap` parameter (the server assigns the final
name from `generateName`). -/

/-- The ConfigMap manifest passed to `create_namespaced_config_map`. -/
structure CMRequest where
  generateName : String
  labels : List (String × String)
  data : List (String × String)
deriving DecidableEq

/-- The create request built at src/ingrate.py:535-539. -/
def ingrateCMRequest (ingrate_name : String)
    (data : List (String × String)) : CMRequest :=
  { generateName := "ingrate-" ++ ingrate_name ++ "-",
    labels := [(ingrateNameLabel, ingrate_name)],
    data := data }

/-- `validate_or_create_ingrate_configmap(data, deployment=...,
ingrate_name=..., namespace=...)`.  Returns the resulting ConfigMap
together with the create request when `create_namespaced_config_map` was
called (`none` = no create call).  When the deployment's
`configmap-version` annotation names an absent ConfigMap, `readCM`
returns `None` and the unguarded `existing_configmap.data` dereference
raises `AttributeError`. -/
def validate_or_create_ingrate_configmap
    (readCM : String → Option ConfigMap)
    (createCM : CMRequest → ConfigMap)
    (data : List (String × String))
    (deployment : Option Deployment)
    (ingrate_name : String) :
    Except PyErr (ConfigMap × Option CMRequest) :=
  let existing_configmap_version :=
    match deployment with
    | some d => dget d.annos ingrateConfigmapVersionAnn
    | none => none
  match existing_configmap_version with
  | some v =>
      match readCM v with
      | none => .error .attributeError
      | some existing_configmap =>
          if dictEq existing_configmap.data data then
            .ok (existing_configmap, none)
          else
            let req := ingrateCMRequest ingrate_name data
            .ok (createCM req, some req)
  | none =>
      let req := ingrateCMRequest ingrate_name data
      .ok (createCM req, some req)

/-- A server that materialises a create request. -/
def createServerNamed (serverName : String) (req : CMRequest) : ConfigMap :=
  { ns := "default", name := serverName,
    generateName := some req.generateName, labels := req.labels,
    ownerReferences := none, data := req.data }

def depNamesOldCM : Deployment :=
  { annos := [(ingrateConfigmapVersionAnn, "ingrate-n-old")] }

/-- C2 counterexample: the existing Deployment names a ConfigMap that is
absent from the cluster; the call raises `AttributeError` instead of
creating a new ConfigMap as the claim's "in every other case" requires. -/
theorem configmap_reuse_c2_counterexample :
    validate_or_create_ingrate_configmap (fun _ => none)
      (createServerNamed "ingrate-n-k2xyz")
      [("haproxy.cfg", "cfg-v2")] (some depNamesOldCM) "n"
      = .error .attributeError := rfl

/-- C2 (amended): if the existing Deployment carries the
`configmap-version` annotation and the ConfigMap it names exists with data
equal to the newly rendered data, that ConfigMap object is returned
unchanged and no create call is made; when the deployment is absent, the
annotation is absent, or the named ConfigMap exists with different data, a
new ConfigMap is created with generateName `ingrate-<name>-`, label
`ingrate.maternity.io/name=<name>` and the rendered data; and when the
annotation names an absent ConfigMap the call raises `AttributeError`
(and creates nothing). -/
theorem configmap_reuse_c2_amended
    (readCM : String → Option ConfigMap) (createCM : CMRequest → ConfigMap)
    (data : List (String × String)) (ingrate_name : String) :
    (∀ d v cm, dget d.annos ingrateConfigmapVersionAnn = some v →
      readCM v = some cm → dictEq cm.data data = true →
      validate_or_create_ingrate_configmap readCM createCM data (some d)
          ingrate_name
        = .ok (cm, none)) ∧
    (validate_or_create_ingrate_configmap readCM createCM data none
          ingrate_name
        = .ok (createCM (ingrateCMRequest ingrate_name data),
               some (ingrateCMRequest ingrate_name data))) ∧
    (∀ d, dget d.annos ingrateConfigmapVersionAnn = none →
      validate_or_create_ingrate_configmap readCM createCM data (some d)
          ingrate_name
        = .ok (createCM (ingrateCMRequest ingrate_name data),
               some (ingrateCMRequest ingrate_name data))) ∧
    (∀ d v cm, dget d.annos ingrateConfigmapVersionAnn = some v →
      readCM v = some cm → dictEq cm.data data = false →
      validate_or_create_ingrate_configmap readCM createCM data (some d)
          ingrate_name
        = .ok (createCM (ingrateCMRequest ingrate_name data),
               some (ingrateCMRequest ingrate_name data))) ∧
    (∀ d v, dget d.annos ingrateConfigmapVersionAnn = some v →
      readCM v = none →
      validate_or_create_ingrate_configmap readCM createCM data (some d)
          ingrate_name
        = .error .attributeError) := by
  refine ⟨?_, ?_, ?_, ?_, ?_⟩
  · intro d v cm hann hread heq
    simp [validate_or_create_ingrate_configmap, hann, hread, heq]
  · rfl
  · intro d hann
    simp [validate_or_create_ingrate_configmap, hann]
  · intro d v cm hann hread hne
    simp [validate_or_create_ingrate_configmap, hann, hread, hne]
  · intro d v hann hread
    simp [validate_or_create_ingrate_configmap, hann, hread]

def cmUpToDate : ConfigMap :=
  { ns := "default", name := "ingrate-n-old", generateName := some "ingrate-n-",
    labels := [(ingrateNameLabel, "n")], ownerReferences := none,
    data := [("haproxy.cfg", "cfg-v1")] }

theorem configmap_reuse_c2_witness :
    validate_or_create_ingrate_configmap
        (fun v => if v = "ingrate-n-old" then some cmUpToDate else none)
        (createServerNamed "ingrate-n-k2abc")
        [("haproxy.cfg", "cfg-v1")] (some depNamesOldCM) "n"
      = .ok (cmUpToDate, none) ∧
    validate_or_create_ingrate_configmap
        (fun v => if v = "ingrate-n-old" then some cmUpToDate else none)
        (createServerNamed "ingrate-n-k2abc")
        [("haproxy.cfg", "cfg-v1")] none "n"
      = .ok (createServerNamed "ingrate-n-k2abc"
               (ingrateCMRequest "n" [("haproxy.cfg", "cfg-v1")]),
             some (ingrateCMRequest "n" [("haproxy.cfg", "cfg-v1")])) :=
  ⟨(configmap_reuse_c2_amended
      (fun v => if v = "ingrate-n-old" then some cmUpToDate else none)
      (createServerNamed "ingrate-n-k2abc")
      [("haproxy.cfg", "cfg-v1")] "n").1 depNamesOldCM "ingrate-n-old"
      cmUpToDate (by decide) (by decide) (by decide),
   (configmap_reuse_c2_amended
      (fun v => if v = "ingrate-n-old" then some cmUpToDate else none)
      (createServerNamed "ingrate-n-k2abc")
      [("haproxy.cfg", "cfg-v1")] "n").2.1⟩

def depNamesV7CM : Deployment :=
  { annos := [(ingrateConfigmapVersionAnn, "ingrate-n-v7")] }

/-- C7: the existing Deployment's `configmap-version` annotation names a
ConfigMap absent from the cluster.  `read_configmap` swallows the NotFound
and returns `None`, but `validate_or_create_ingrate_configmap` then
dereferences `existing_configmap.data` unconditionally, so the cycle
raises `AttributeError` instead of skipping the diff-logging block and
creating a fresh ConfigMap as the spec intends. -/
theorem configmap_absent_attrerror_c7 :
    validate_or_create_ingrate_configmap (fun _ => none)
      (createServerNamed "ingrate-n-k7xyz")
      [("haproxy.cfg", "cfg-v7")] (some depNamesV7CM) "n"
      = .error .attributeError := rfl

/-! ## First-creation revision comparison in `main`
(src/ingrate.py:155-162) -/

/-- Python `d[k]` on an annotations dict: KeyError when absent. -/
def pyIndex (m : List (String × String)) (k : String) : Except PyErr String :=
  match dget m k with
  | some v => .ok v
  | none => .error .keyError

/-- The comparison after `watch_for_deployment_revision_to_post` returns:
`existing_deployment.metadata.annotations[DEPLOYMENT_REVISION_ANNOTATION]`
is evaluated unconditionally, so when `read_deployment` returned absent
(`existing_deployment is None`) the attribute access raises
`AttributeError`.  On success the returned Bool is whether the
`deployment_revision == existing_deployment_revision` early exit is
taken. -/
def postRolloutRevisionCheck (existing_deployment : Option Deployment)
    (deployment : Deployment) : Except PyErr Bool :=
  match existing_deployment with
  | none => .error .attributeError
  | some d =>
      match pyIndex d.annos deploymentRevisionAnn with
      | .error e => .error e
      | .ok existing_deployment_revision =>
          match pyIndex deployment.annos deploymentRevisionAnn with
          | .error e => .error e
          | .ok deployment_revision =>
              .ok (deployment_revision == existing_deployment_revision)

def depPostedRev1 : Deployment :=
  { annos := [(deploymentRevisionAnn, "1")] }

/-- C6: on first creation no prior Deployment exists, and instead of
treating the previous revision as the empty string (so that the early exit
is not taken and the cycle proceeds to the ReplicaSet bind and owner
pinning), the code dereferences `None.metadata` and raises
`AttributeError`, aborting the cycle. -/
theorem first_creation_revision_check_c6 :
    postRolloutRevisionCheck none depPostedRev1 = .error .attributeError :=
  rfl

/-! ## `IngrateController.watch_for_deployment_exposure`
(src/ingrate.py:638-659) -/

/-- Python truthiness chain `svc.status and svc.status.loadBalancer`: the
service's `LoadBalancerStatus` when both attributes are present (a model
object without `__bool__` is truthy), else `None`. -/
def svcLoadBalancer (svc : Service) : Option LoadBalancerStatus :=
  match svc.status with
  | none => none
  | some st => st.loadBalancer

/-- The initial `load_balancers` dict comprehension over the list call
(src/ingrate.py:642-645).  Note: no `spec.type` check here. -/
def initialLoadBalancers (items : List Service) :
    List (String × LoadBalancerStatus) :=
  items.filterMap (fun svc =>
    match svcLoadBalancer svc with
    | some lb => some (svc.name, lb)
    | none => none)

/-- The watch-loop body (src/ingrate.py:648-659).  Returns the updated map
and whether the iteration reaches its `yield`. -/
def exposureWatchStep (load_balancers : List (String × LoadBalancerStatus))
    (ev : WatchEv) (svc : Service) :
    List (String × LoadBalancerStatus) × Bool :=
  if (ev = .added ∨ ev = .modified) ∧ svc.svcType = "LoadBalancer" then
    match svcLoadBalancer svc with
    | some lb => (dinsert load_balancers svc.name lb, true)
    | none => (load_balancers, true)
  else if ev = .deleted ∧ svc.svcType = "LoadBalancer" then
    (dremove load_balancers svc.name, true)
  else (load_balancers, false)

/-- C9 as stated: every entry of the map comes from a service of
`spec.type == "LoadBalancer"` that currently has a `status.loadBalancer`. -/
def onlyExposureEntries (items : List Service)
    (lbs : List (String × LoadBalancerStatus)) : Prop :=
  ∀ kv ∈ lbs, ∃ svc ∈ items,
    svc.name = kv.1 ∧ svc.svcType = "LoadBalancer" ∧
      svcLoadBalancer svc = some kv.2

/-- A non-LoadBalancer service that nevertheless carries a (present, empty)
`status.loadBalancer`, as any Kubernetes Service does. -/
def clusterIPSvc : Service :=
  { ns := "ns", name := "internal", svcType := "ClusterIP",
    annos := none,
    status := some { loadBalancer := some { ingress := [] } } }

/-- C9 counterexample: the initial map built from the list call applies no
`spec.type` filter, so a ClusterIP service with a present
`status.loadBalancer` lands in the emitted `load_balancers` map. -/
theorem exposure_filter_c9_counterexample :
    initialLoadBalancers [clusterIPSvc]
        = [("internal", { ingress := [] })] ∧
    ¬ onlyExposureEntries [clusterIPSvc]
        (initialLoadBalancers [clusterIPSvc]) := by
  refine ⟨rfl, ?_⟩
  intro h
  obtain ⟨svc, hmem, -, htype, -⟩ :=
    h ("internal", { ingress := [] }) (by decide)
  rcases List.mem_singleton.1 hmem with rfl
  exact absurd htype (by decide)

/-- C9 (amended): every entry of an emitted `load_balancers` map was
inserted from a service whose `status.loadBalancer` was present at
insertion time; entries inserted by the watch loop additionally come from
services with `spec.type == "LoadBalancer"`, but the initial map built
from the list call applies no `spec.type` check. -/
theorem exposure_filter_c9_amended :
    (∀ (items : List Service) (kv : String × LoadBalancerStatus),
      kv ∈ initialLoadBalancers items →
      ∃ svc ∈ items, svc.name = kv.1 ∧ svcLoadBalancer svc = some kv.2) ∧
    (∀ (lbs : List (String × LoadBalancerStatus)) (ev : WatchEv)
        (svc : Service) (kv : String × LoadBalancerStatus),
      kv ∈ (exposureWatchStep lbs ev svc).1 →
      kv ∈ lbs ∨ (svc.svcType = "LoadBalancer" ∧ kv.1 = svc.name ∧
        svcLoadBalancer svc = some kv.2)) := by
  constructor
  · intro items kv hkv
    obtain ⟨svc, hmem, heq⟩ := List.mem_filterMap.1 hkv
    refine ⟨svc, hmem, ?_⟩
    cases hlb : svcLoadBalancer svc with
    | none => rw [hlb] at heq; exact absurd heq (by simp)
    | some lb =>
        rw [hlb] at heq
        obtain rfl := Option.some.inj heq
        exact ⟨rfl, rfl⟩
  · intro lbs ev svc kv hkv
    unfold exposureWatchStep at hkv
    split at hkv
    · next hcond =>
      cases hlb : svcLoadBalancer svc with
      | none => rw [hlb] at hkv; exact Or.inl hkv
      | some lb =>
          rw [hlb] at hkv
          rcases mem_dinsert hkv with h | h
          · exact Or.inl h
          · obtain rfl := h
            exact Or.inr ⟨hcond.2, rfl, rfl⟩
    · split at hkv
      · exact Or.inl (mem_dremove hkv)
      · exact Or.inl hkv

/-- An exposure service proper. -/
def lbSvc : Service :=
  { ns := "ns", name := "edge", svcType := "LoadBalancer",
    annos := none,
    status := some { loadBalancer := some { ingress := ["x.elb"] } } }

theorem exposure_filter_c9_witness :
    (∃ svc ∈ [lbSvc],
      svc.name = ("edge", ({ ingress := ["x.elb"] } : LoadBalancerStatus)).1 ∧
      svcLoadBalancer svc =
        some ("edge", ({ ingress := ["x.elb"] } : LoadBalancerStatus)).2) ∧
    (("edge", ({ ingress := ["x.elb"] } : LoadBalancerStatus)) ∈ ([] : List (String × LoadBalancerStatus)) ∨
      (lbSvc.svcType = "LoadBalancer" ∧
        ("edge", ({ ingress := ["x.elb"] } : LoadBalancerStatus)).1 = lbSvc.name ∧
        svcLoadBalancer lbSvc =
          some ("edge", ({ ingress := ["x.elb"] } : LoadBalancerStatus)).2)) :=
  ⟨exposure_filter_c9_amended.1 [lbSvc] ("edge", { ingress := ["x.elb"] })
      (by decide),
   exposure_filter_c9_amended.2 [] .added lbSvc
      ("edge", { ingress := ["x.elb"] }) (by decide)⟩

/-! ## Status publisher: the `load_balancers` branch of `main`
(src/ingrate.py:188-214) -/

/-- Ordering of `sorted(load_balancers.items())`: ascending service name.
Stated on the character lists so that it evaluates; by
`String.le_iff_toList_le` this is exactly `String`'s lexicographic `≤`.
(The second tuple components are never compared since dict keys are
unique.) -/
def lbLe (a b : String × LoadBalancerStatus) : Prop :=
  a.1.toList ≤ b.1.toList

instance : DecidableRel lbLe :=
  fun a b => inferInstanceAs (Decidable (a.1.toList ≤ b.1.toList))

instance : IsTotal (String × LoadBalancerStatus) lbLe :=
  ⟨fun a b => le_total a.1.toList b.1.toList⟩

instance : IsTrans (String × LoadBalancerStatus) lbLe :=
  ⟨fun _ _ _ h1 h2 => le_trans h1 h2⟩

/-- `LoadBalancerStatus(ingress=[])` then
`for _,lb in sorted(load_balancers.items()): load_balancer.ingress.extend(lb.ingress)`
(src/ingrate.py:194-196). -/
def mergeLoadBalancers (load_balancers : List (String × LoadBalancerStatus)) :
    LoadBalancerStatus :=
  { ingress := (List.insertionSort lbLe load_balancers).foldl
      (fun acc kv => acc ++ kv.2.ingress) [] }

/-- Python truthiness chain `ing.status and ing.status.loadBalancer`. -/
def ingLoadBalancer (ing : Ingress) : Option LoadBalancerStatus :=
  match ing.status with
  | none => none
  | some st => st.loadBalancer

/-- A `replace_namespaced_ingress_status` call: the minimal object carries
`metadata.\x7bnamespace,name\x7d` and the merged status. -/
structure StatusWrite where
  ns : String
  name : String
  lb : LoadBalancerStatus
deriving DecidableEq

/-- The per-ingress body of the status loop (src/ingrate.py:198-214):
skip when the current `status.loadBalancer` is present and equals the
merged value, otherwise issue a replace carrying the merged value. -/
def ingressStatusWrite (merged : LoadBalancerStatus) (ing : Ingress) :
    Option StatusWrite :=
  match ingLoadBalancer ing with
  | some lb =>
      if lb = merged then none
      else some { ns := ing.ns, name := ing.name, lb := merged }
  | none => some { ns := ing.ns, name := ing.name, lb := merged }

/-- The status writes one pass of the `load_balancers` branch issues:
nothing when `load_balancers` is empty (`if not load_balancers: continue`),
else one write per non-up-to-date ingress. -/
def statusWrites (ingresses : List Ingress)
    (load_balancers : List (String × LoadBalancerStatus)) :
    List StatusWrite :=
  if load_balancers.isEmpty then []
  else ingresses.filterMap (ingressStatusWrite (mergeLoadBalancers load_balancers))

theorem foldl_append_ingress (l : List (String × LoadBalancerStatus))
    (init : List String) :
    l.foldl (fun acc kv => acc ++ kv.2.ingress) init =
      init ++ (l.map (fun kv => kv.2.ingress)).flatten := by
  induction l generalizing init with
  | nil => simp
  | cons hd t ih => simp [ih, List.append_assoc]

theorem ingressStatusWrite_lb {merged : LoadBalancerStatus} {ing : Ingress}
    {w : StatusWrite} (h : ingressStatusWrite merged ing = some w) :
    w.lb = merged := by
  unfold ingressStatusWrite at h
  split at h
  · split at h
    · exact absurd h (by simp)
    · obtain rfl := Option.some.inj h
      rfl
  · obtain rfl := Option.some.inj h
    rfl

/-- C8: every status the controller writes carries the merge of all
current exposure-service `status.loadBalancer.ingress` lists, concatenated
in ascending service-name order (the sorted list is an ordered permutation
of the `load_balancers` map); and an ingress whose current
`status.loadBalancer` already equals the merged value gets no replace
call. -/
theorem status_merge_c8 (load_balancers : List (String × LoadBalancerStatus))
    (ingresses : List Ingress) :
    (∀ w ∈ statusWrites ingresses load_balancers,
      w.lb = mergeLoadBalancers load_balancers) ∧
    (mergeLoadBalancers load_balancers).ingress =
      ((List.insertionSort lbLe load_balancers).map
        (fun kv => kv.2.ingress)).flatten ∧
    List.Sorted lbLe (List.insertionSort lbLe load_balancers) ∧
    List.Perm (List.insertionSort lbLe load_balancers) load_balancers ∧
    (∀ ing, ingLoadBalancer ing = some (mergeLoadBalancers load_balancers) →
      ingressStatusWrite (mergeLoadBalancers load_balancers) ing = none) := by
  refine ⟨?_, ?_, ?_, ?_, ?_⟩
  · intro w hw
    unfold statusWrites at hw
    split at hw
    · exact absurd hw (by simp)
    · obtain ⟨ing, -, heq⟩ := List.mem_filterMap.1 hw
      exact ingressStatusWrite_lb heq
  · unfold mergeLoadBalancers
    rw [foldl_append_ingress]
    simp
  · exact List.sorted_insertionSort lbLe load_balancers
  · exact List.perm_insertionSort lbLe load_balancers
  · intro ing h
    unfold ingressStatusWrite
    rw [h]
    simp

/-- The spec's P6 scenario: exposure services `a` and `b` with ingress
lists `[a1]` and `[b1, b2]` (listed here out of name order). -/
def lbsTwo : List (String × LoadBalancerStatus) :=
  [("b", { ingress := ["b1", "b2"] }), ("a", { ingress := ["a1"] })]

def ingStale : Ingress := { ns := "ns", name := "site", status := none }

def ingSynced : Ingress :=
  { ns := "ns", name := "done",
    status := some { loadBalancer := some { ingress := ["a1", "b1", "b2"] } } }

theorem status_merge_c8_witness :
    mergeLoadBalancers lbsTwo = { ingress := ["a1", "b1", "b2"] } ∧
    ({ ns := "ns", name := "site",
       lb := mergeLoadBalancers lbsTwo } : StatusWrite).lb
      = mergeLoadBalancers lbsTwo ∧
    ingressStatusWrite (mergeLoadBalancers lbsTwo) ingSynced = none :=
  ⟨by decide,
   (status_merge_c8 lbsTwo [ingStale]).1
     { ns := "ns", name := "site", lb := mergeLoadBalancers lbsTwo }
     (by decide),
   (status_merge_c8 lbsTwo [ingSynced]).2.2.2.2 ingSynced (by decide)⟩

end Ingrate
